import Mathlib

/-!
Verification of the TCP request/response server (`src/server.rs`, `src/client.rs`).

The embedding models byte streams as `List Nat` (each element one byte,
values < 256 where it matters): a finite list is everything the peer sends
before closing its end, so a read past the end of the list is exactly an
end-of-stream condition.  Payload serialization (prost) is an external
collaborator per the spec, so `ClientMessage::decode` / `ServerMessage::decode`
and `encode_to_vec` are parameters of the session-level functions.

Rust `i32` values are `Int` together with the two's-complement range; the
profile-dependent semantics of the `+` operator (overflow checks on in cargo's
default dev/test profiles, two's-complement wraparound when they are off, the
release default) is made explicit by `OverflowChecks`.
-/

/-- Error kinds of `std::io::ErrorKind` used by the code. -/
inductive IOErrorKind where
  | unexpectedEof
  | invalidData
  | wouldBlock
  | notConnected
  | other
deriving DecidableEq, Repr

/-- A `std::io::Error`: a kind plus its message string. -/
structure IOError where
  kind : IOErrorKind
  msg : String
deriving DecidableEq, Repr

/-- message.rs `EchoMessage { content: String }`. -/
structure EchoMessage where
  content : String
deriving DecidableEq, Repr

/-- message.rs `AddRequest { a: i32, b: i32 }`; the fields carry the
mathematical value of the `i32`. -/
structure AddRequest where
  a : Int
  b : Int
deriving DecidableEq, Repr

/-- message.rs `AddResponse { result: i32 }`. -/
structure AddResponse where
  result : Int
deriving DecidableEq, Repr

/-- `client_message::Message`, the request tagged union. -/
inductive ClientMessageEnum where
  | echoMessage : EchoMessage → ClientMessageEnum
  | addRequest : AddRequest → ClientMessageEnum
deriving DecidableEq, Repr

/-- `ClientMessage { message: Option<client_message::Message> }`. -/
structure ClientMessage where
  message : Option ClientMessageEnum
deriving DecidableEq, Repr

/-- `server_message::Message`, the response tagged union. -/
inductive ServerMessageEnum where
  | echoMessage : EchoMessage → ServerMessageEnum
  | addResponse : AddResponse → ServerMessageEnum
deriving DecidableEq, Repr

/-- `ServerMessage { message: Option<server_message::Message> }`. -/
structure ServerMessage where
  message : Option ServerMessageEnum
deriving DecidableEq, Repr

/-- server.rs line 17: `const MAX_MESSAGE_SIZE: usize = 1024 * 1024;`. -/
def MAX_MESSAGE_SIZE : Nat := 1024 * 1024

/-- `u32::from_be_bytes` on a 4-byte buffer (big-endian). -/
def u32FromBeBytes : List Nat → Nat
  | [b0, b1, b2, b3] => ((b0 * 256 + b1) * 256 + b2) * 256 + b3
  | _ => 0

/-- `u32::to_be_bytes` (big-endian), for a value already reduced mod 2^32. -/
def u32ToBeBytes (n : Nat) : List Nat :=
  [n / 16777216 % 256, n / 65536 % 256, n / 256 % 256, n % 256]

/-- `Read::read_exact` into a buffer of `n` bytes on a stream whose remaining
bytes are `s`: succeeds returning the bytes read and the rest of the stream
when at least `n` bytes remain, and fails with `ErrorKind::UnexpectedEof`
when end-of-stream is hit first (including when zero bytes are available). -/
def readExact (s : List Nat) (n : Nat) : Except IOError (List Nat × List Nat) :=
  if n ≤ s.length then .ok (s.take n, s.drop n)
  else .error ⟨.unexpectedEof, "failed to fill whole buffer"⟩

/-- The error built at server.rs lines 113-116 for an oversized frame. -/
def msgTooLarge : IOError := ⟨.invalidData, "Message size exceeds maximum allowed"⟩

/-- server.rs `Client::read_message` (lines 107-122): read a 4-byte big-endian
length prefix, reject lengths above `MAX_MESSAGE_SIZE` before touching the
body, then read exactly that many payload bytes.  Returns the payload and the
remaining stream. -/
def read_message (s : List Nat) : Except IOError (List Nat × List Nat) :=
  match readExact s 4 with
  | .error e => .error e
  | .ok (lenBuf, rest) =>
    let messageLen := u32FromBeBytes lenBuf
    if messageLen > MAX_MESSAGE_SIZE then
      .error msgTooLarge
    else
      match readExact rest messageLen with
      | .error e => .error e
      | .ok (buffer, rest2) => .ok (buffer, rest2)

/-- server.rs `Client::write_message` (lines 124-129): the bytes put on the
wire for a payload, i.e. the 4-byte big-endian length (the `usize` length cast
to `u32`, hence reduced mod 2^32) followed by the payload. -/
def write_message (payload : List Nat) : List Nat :=
  u32ToBeBytes (payload.length % 4294967296) ++ payload

/-- Whether the build has integer overflow checks: `enabled` is cargo's
default for dev and test profiles, `disabled` (two's-complement wraparound)
its default for release. -/
inductive OverflowChecks where
  | enabled
  | disabled
deriving DecidableEq, Repr

/-- Two's-complement wraparound of an integer into the `i32` range. -/
def wrapI32 (x : Int) : Int := (x + 2147483648) % 4294967296 - 2147483648

/-- Rust `a + b` on `i32` with overflow checks on: panics (modelled as `none`)
when the mathematical sum leaves the `i32` range. -/
def rustAddI32Checked (a b : Int) : Option Int :=
  if -2147483648 ≤ a + b ∧ a + b < 2147483648 then some (a + b) else none

/-- Rust `a + b` on `i32` with overflow checks off: two's-complement wrap. -/
def rustAddI32Wrapping (a b : Int) : Int := wrapI32 (a + b)

/-- server.rs `Client::handle_echo` (lines 173-177): wraps the request's
`EchoMessage` unchanged into a `ServerMessage`. -/
def handle_echo (msg : EchoMessage) : Except IOError ServerMessage :=
  .ok ⟨some (.echoMessage msg)⟩

/-- server.rs `Client::handle_add` (lines 179-186): `let result = req.a + req.b`.
With overflow checks enabled (cargo's dev/test default) the bare `+` panics on
overflow, modelled as `none`; with them disabled (release default) it wraps. -/
def handle_add (oc : OverflowChecks) (req : AddRequest) :
    Option (Except IOError ServerMessage) :=
  match oc with
  | .enabled =>
    match rustAddI32Checked req.a req.b with
    | some result => some (.ok ⟨some (.addResponse ⟨result⟩)⟩)
    | none => none
  | .disabled => some (.ok ⟨some (.addResponse ⟨rustAddI32Wrapping req.a req.b⟩)⟩)

/-- The dispatch `match message { EchoMessage(echo) => ..., AddRequest(add) => ... }`
at server.rs lines 138-147; `none` is a panic escaping from `handle_add`. -/
def dispatchMessage (oc : OverflowChecks) (m : ClientMessageEnum) :
    Option (Except IOError ServerMessage) :=
  match m with
  | .echoMessage echo => some (handle_echo echo)
  | .addRequest add => handle_add oc add

/-- How one `Client::handle` call ends: `ok true` keep the session, `ok false`
close it gracefully, `ioError` an `Err` returned to the session loop,
`panicked` an unwind out of the handler. -/
inductive HandleOutcome where
  | ok : Bool → HandleOutcome
  | ioError : IOError → HandleOutcome
  | panicked
deriving DecidableEq, Repr

/-- server.rs `Client::handle` (lines 131-171) over a stream `s`, parametrised
by the prost decoder `dec` for `ClientMessage` and encoder `enc` for
`ServerMessage`.  Returns the outcome, the bytes written to the socket, and
the remaining input stream. -/
def handle (oc : OverflowChecks) (dec : List Nat → Except String ClientMessage)
    (enc : ServerMessage → List Nat) (s : List Nat) :
    HandleOutcome × List Nat × List Nat :=
  match read_message s with
  | .ok (buffer, rest) =>
    match dec buffer with
    | .ok clientMsg =>
      match clientMsg.message with
      | some message =>
        match dispatchMessage oc message with
        | none => (.panicked, [], rest)
        | some (.error e) => (.ioError e, [], rest)
        | some (.ok response) => (.ok true, write_message (enc response), rest)
      | none => (.ok true, [], rest)
    | .error _ => (.ok false, [], rest)
  | .error e =>
    if e.kind = .unexpectedEof then (.ok false, [], s)
    else (.ioError e, [], s)

/-- The session state machine of the spec: the per-connection loop at
server.rs lines 219-228 either continues (`active`) or breaks (`closed`). -/
inductive SessionState where
  | active
  | closed
deriving DecidableEq, Repr

/-- The session loop's reaction to one `handle` outcome: `Ok(true)` continues,
`Ok(false)` and `Err` break, and a panic unwinds the task (loop gone). -/
def stepState : HandleOutcome → SessionState
  | .ok true => .active
  | .ok false => .closed
  | .ioError _ => .closed
  | .panicked => .closed

/-- One result of `self.listener.accept()` as seen by the loop at server.rs
lines 212-240: a new connection, a would-block (no pending connection), or
any other accept error. -/
inductive AcceptEvent where
  | conn
  | wouldBlock
  | fatal : IOError → AcceptEvent
deriving DecidableEq, Repr

/-- What `Server::run`'s loop did: how many connections it submitted to the
thread pool, and the accept error (if any) that made it break. -/
structure RunSummary where
  tasksSubmitted : Nat
  loopError : Option IOError
deriving DecidableEq, Repr

/-- The `while self.is_running ... { match self.listener.accept() ... }` loop
(server.rs lines 211-241) over the accept results it sees while the running
flag is set; an exhausted event list is the flag being observed false.
`conn` submits a task and continues, `wouldBlock` sleeps 100ms and continues,
any other error logs and breaks the loop. -/
def acceptLoop : List AcceptEvent → Nat × Option IOError
  | [] => (0, none)
  | .conn :: rest =>
    let (n, r) := acceptLoop rest
    (n + 1, r)
  | .wouldBlock :: rest => acceptLoop rest
  | .fatal e :: _ => (0, some e)

/-- server.rs `Server::run` (lines 207-245): sets the running flag, queries
`self.listener.local_addr()?` (the only fallible expression, modelled by
`localAddrErr`), runs the accept loop, and returns `Ok(())` when the loop
exits — whether the flag was cleared or an accept error broke the loop. -/
def Server.run (localAddrErr : Option IOError) (events : List AcceptEvent) :
    Except IOError RunSummary :=
  match localAddrErr with
  | some e => .error e
  | none =>
    let (n, r) := acceptLoop events
    .ok ⟨n, r⟩

/-- The observable side effect of one `Server::stop` call. -/
inductive StopEffect where
  | dialedSelf
  | noLocalAddr
  | warnedAlreadyStopped
deriving DecidableEq, Repr

/-- server.rs `Server::stop` (lines 247-258) acting on the running flag:
when the flag is set, clear it and dial the server's own listening address
(skipped only if `local_addr()` fails); otherwise log a warning and leave
everything unchanged.  Returns the new flag value and the effect. -/
def Server.stop (isRunning : Bool) (localAddrOk : Bool) : Bool × StopEffect :=
  if isRunning then
    (false, if localAddrOk then .dialedSelf else .noLocalAddr)
  else
    (isRunning, .warnedAlreadyStopped)

/-- Whether a submitted job runs to completion or raises a panic. -/
inductive JobOutcome where
  | completes
  | panics
deriving DecidableEq, Repr

/-- server.rs `ThreadPoolMessage` (lines 30-33), with each job abstracted to
its outcome. -/
inductive ThreadPoolMessage where
  | newJob : JobOutcome → ThreadPoolMessage
  | terminate
deriving DecidableEq, Repr

/-- How a worker's dequeue loop ended. -/
inductive WorkerExit where
  | terminated
  | panicked
  | blockedOnRecv
deriving DecidableEq, Repr

/-- The dequeue loop spawned by `Worker::new` (server.rs lines 75-88) over the
sequence of pool messages this worker receives: `NewJob` runs `job()` bare —
there is no catch/recover at the task boundary, so a panicking job unwinds
the thread and the loop is gone — and `Terminate` breaks.  Returns how many
jobs the worker started and how its loop ended (an exhausted list leaves the
worker blocked in `recv()`). -/
def workerLoop : List ThreadPoolMessage → Nat × WorkerExit
  | [] => (0, .blockedOnRecv)
  | .newJob .completes :: rest =>
    let (n, e) := workerLoop rest
    (n + 1, e)
  | .newJob .panics :: _ => (1, .panicked)
  | .terminate :: _ => (0, .terminated)

/-- client.rs `Client::receive` (lines 80-103), parametrised by the prost
decoder for `ServerMessage`; the stream is `none` when no connection is
active.  It reads a 4-byte big-endian length `L`, then reads exactly `L`
bytes — with no maximum-size check — and decodes them. -/
def Client.receive (dec : List Nat → Except String ServerMessage) :
    Option (List Nat) → Except IOError (ServerMessage × List Nat)
  | none => .error ⟨.notConnected, "No active connection"⟩
  | some s =>
    match readExact s 4 with
    | .error e => .error e
    | .ok (lenBuf, rest) =>
      let messageLen := u32FromBeBytes lenBuf
      match readExact rest messageLen with
      | .error e => .error e
      | .ok (buffer, rest2) =>
        match dec buffer with
        | .ok m => .ok (m, rest2)
        | .error _ => .error ⟨.invalidData, "Failed to decode ServerMessage"⟩

/-- A concrete `ClientMessage` decoder whose every answer is the in-range
message with no variant, used to instantiate the decoder parameter. -/
def decAlwaysEmpty : List Nat → Except String ClientMessage :=
  fun _ => .ok ⟨none⟩

/-- A concrete `ClientMessage` decoder that always fails. -/
def decAlwaysFails : List Nat → Except String ClientMessage :=
  fun _ => .error "bad wire data"

/-- A concrete `ClientMessage` decoder answering an `EchoMessage` request. -/
def decAlwaysEcho : List Nat → Except String ClientMessage :=
  fun _ => .ok ⟨some (.echoMessage ⟨"hi"⟩)⟩

/-- A concrete `ServerMessage` decoder answering the variant-free message. -/
def decSrvAlwaysEmpty : List Nat → Except String ServerMessage :=
  fun _ => .ok ⟨none⟩

/-- A concrete `ServerMessage` encoder: one byte per tag, enough to observe
which response was written. -/
def encTag : ServerMessage → List Nat
  | ⟨none⟩ => [0]
  | ⟨some (.echoMessage _)⟩ => [1]
  | ⟨some (.addResponse _)⟩ => [2]

theorem readExact_append (a b : List Nat) : readExact (a ++ b) a.length = .ok (a, b) := by
  simp [readExact]

theorem readExact_short (s : List Nat) (n : Nat) (h : s.length < n) :
    readExact s n = .error ⟨.unexpectedEof, "failed to fill whole buffer"⟩ := by
  simp [readExact]
  omega

theorem u32_roundtrip (n : Nat) (h : n < 4294967296) :
    u32FromBeBytes (u32ToBeBytes n) = n := by
  simp [u32FromBeBytes, u32ToBeBytes]
  omega

/-- A well-formed frame carrying an in-bounds payload `p` followed by the rest
of the stream is read back as exactly `p`. -/
theorem read_message_frame (p rest : List Nat) (h : p.length ≤ MAX_MESSAGE_SIZE) :
    read_message (u32ToBeBytes p.length ++ (p ++ rest)) = .ok (p, rest) := by
  have hlt : p.length < 4294967296 := lt_of_le_of_lt h (by norm_num [MAX_MESSAGE_SIZE])
  have h1 : readExact (u32ToBeBytes p.length ++ (p ++ rest)) 4 =
      .ok (u32ToBeBytes p.length, p ++ rest) := readExact_append _ _
  simp [read_message, h1, u32_roundtrip _ hlt, Nat.not_lt.mpr h, readExact_append]

/-- Claim C1: the spec requires `Add{a,b}` to answer `AddResult{a+b}` with
wraparound 32-bit semantics, `Add{INT32_MAX, 1}` included.  The code computes
the sum with a bare `+` (server.rs line 180): with overflow checks enabled —
cargo's default for dev and test builds — `Add{2147483647, 1}` panics instead
of answering (no `AddResult` is produced), and only the checks-off release
semantics wraps to -2147483648 as the spec demands. -/
theorem add_int32max_overflow_bug :
    handle_add .enabled ⟨2147483647, 1⟩ = none
    ∧ handle_add .disabled ⟨2147483647, 1⟩ =
        some (.ok ⟨some (.addResponse ⟨-2147483648⟩)⟩)
    ∧ dispatchMessage .enabled (.addRequest ⟨2147483647, 1⟩) = none := by
  exact ⟨rfl, rfl, rfl⟩

/-- Claim C2: a frame whose payload decodes to an `Echo{content}` request is
answered with outcome `Ok(true)` and exactly one written frame carrying the
encoding of the `Echo` response with the identical content, for every content
string (the empty string and arbitrary lengths included). -/
theorem echo_identity (oc : OverflowChecks)
    (dec : List Nat → Except String ClientMessage) (enc : ServerMessage → List Nat)
    (p rest : List Nat) (c : String)
    (hlen : p.length ≤ MAX_MESSAGE_SIZE)
    (hdec : dec p = .ok ⟨some (.echoMessage ⟨c⟩)⟩) :
    handle oc dec enc (u32ToBeBytes p.length ++ (p ++ rest)) =
      (.ok true, write_message (enc ⟨some (.echoMessage ⟨c⟩)⟩), rest) := by
  simp [handle, read_message_frame p rest hlen, hdec, dispatchMessage, handle_echo]

/-- Witness for C2 at a concrete frame whose payload decodes to an echo
request with content "hi". -/
theorem echo_identity_witness :
    handle .disabled decAlwaysEcho encTag (u32ToBeBytes (List.length [9]) ++ ([9] ++ [])) =
      (.ok true, write_message (encTag ⟨some (.echoMessage ⟨"hi"⟩)⟩), []) :=
  echo_identity .disabled decAlwaysEcho encTag [9] [] "hi" (by decide) (by rfl)

/-- Claim C3: a frame whose declared 4-byte big-endian length exceeds
`MAX_MESSAGE_SIZE` (1 MiB) makes `read_message` fail with the
"message too large" error before any body byte is read (the result is that
of the 4 prefix bytes alone, whatever the body), and `handle` surfaces it as
an `Err`, writing nothing, so the session loop breaks to `closed`. -/
theorem oversized_frame_rejected (oc : OverflowChecks)
    (dec : List Nat → Except String ClientMessage) (enc : ServerMessage → List Nat)
    (lenBuf body : List Nat) (h4 : lenBuf.length = 4)
    (hmax : MAX_MESSAGE_SIZE < u32FromBeBytes lenBuf) :
    read_message (lenBuf ++ body) = .error msgTooLarge
    ∧ read_message (lenBuf ++ body) = read_message lenBuf
    ∧ handle oc dec enc (lenBuf ++ body) = (.ioError msgTooLarge, [], lenBuf ++ body)
    ∧ stepState (handle oc dec enc (lenBuf ++ body)).1 = .closed := by
  have h1 : readExact (lenBuf ++ body) 4 = .ok (lenBuf, body) := by
    rw [← h4]; exact readExact_append _ _
  have h2 : readExact lenBuf 4 = .ok (lenBuf, []) := by
    have := readExact_append lenBuf []
    rw [h4] at this
    simpa using this
  have hr1 : read_message (lenBuf ++ body) = .error msgTooLarge := by
    simp [read_message, h1, hmax]
  have hr2 : read_message lenBuf = .error msgTooLarge := by
    simp [read_message, h2, hmax]
  have hh : handle oc dec enc (lenBuf ++ body) = (.ioError msgTooLarge, [], lenBuf ++ body) := by
    simp [handle, hr1, msgTooLarge]
  exact ⟨hr1, by rw [hr1, hr2], hh, by rw [hh]; rfl⟩

/-- Witness for C3 at the declared length 1048577 = 1 MiB + 1 with a one-byte
body. -/
theorem oversized_frame_rejected_witness :
    read_message ([0, 16, 0, 1] ++ [42]) = .error msgTooLarge
    ∧ read_message ([0, 16, 0, 1] ++ [42]) = read_message [0, 16, 0, 1]
    ∧ handle .disabled decAlwaysEmpty encTag ([0, 16, 0, 1] ++ [42]) =
        (.ioError msgTooLarge, [], [0, 16, 0, 1] ++ [42])
    ∧ stepState (handle .disabled decAlwaysEmpty encTag ([0, 16, 0, 1] ++ [42])).1 = .closed :=
  oversized_frame_rejected .disabled decAlwaysEmpty encTag [0, 16, 0, 1] [42]
    (by decide) (by decide)

/-- Claim C4: a frame whose payload fails to decode makes `handle` return
`Ok(false)` with no bytes written, and `Ok(false)` breaks the session loop —
the session is `closed`, no response and no retry on that connection. -/
theorem decode_error_closes_connection (oc : OverflowChecks)
    (dec : List Nat → Except String ClientMessage) (enc : ServerMessage → List Nat)
    (p rest : List Nat) (err : String)
    (hlen : p.length ≤ MAX_MESSAGE_SIZE)
    (hdec : dec p = .error err) :
    handle oc dec enc (u32ToBeBytes p.length ++ (p ++ rest)) = (.ok false, [], rest)
    ∧ stepState (handle oc dec enc (u32ToBeBytes p.length ++ (p ++ rest))).1 = .closed := by
  have hh : handle oc dec enc (u32ToBeBytes p.length ++ (p ++ rest)) = (.ok false, [], rest) := by
    simp [handle, read_message_frame p rest hlen, hdec]
  exact ⟨hh, by rw [hh]; rfl⟩

/-- Witness for C4 at a concrete frame whose payload fails to decode. -/
theorem decode_error_closes_connection_witness :
    handle .disabled decAlwaysFails encTag (u32ToBeBytes (List.length [7]) ++ ([7] ++ [])) =
      (.ok false, [], [])
    ∧ stepState (handle .disabled decAlwaysFails encTag
        (u32ToBeBytes (List.length [7]) ++ ([7] ++ []))).1 = .closed :=
  decode_error_closes_connection .disabled decAlwaysFails encTag [7] [] "bad wire data"
    (by decide) (by rfl)

/-- Claim C5: a frame that decodes to a `ClientMessage` carrying no variant
(`message == None`) makes `handle` return `Ok(true)` with no bytes written,
and `Ok(true)` keeps the session loop going — the session stays `active` and
the case is a no-op, not an error. -/
theorem missing_variant_is_noop (oc : OverflowChecks)
    (dec : List Nat → Except String ClientMessage) (enc : ServerMessage → List Nat)
    (p rest : List Nat)
    (hlen : p.length ≤ MAX_MESSAGE_SIZE)
    (hdec : dec p = .ok ⟨none⟩) :
    handle oc dec enc (u32ToBeBytes p.length ++ (p ++ rest)) = (.ok true, [], rest)
    ∧ stepState (handle oc dec enc (u32ToBeBytes p.length ++ (p ++ rest))).1 = .active := by
  have hh : handle oc dec enc (u32ToBeBytes p.length ++ (p ++ rest)) = (.ok true, [], rest) := by
    simp [handle, read_message_frame p rest hlen, hdec]
  exact ⟨hh, by rw [hh]; rfl⟩

/-- Witness for C5 at a concrete frame decoding to the variant-free message. -/
theorem missing_variant_is_noop_witness :
    handle .disabled decAlwaysEmpty encTag (u32ToBeBytes (List.length [7]) ++ ([7] ++ [])) =
      (.ok true, [], [])
    ∧ stepState (handle .disabled decAlwaysEmpty encTag
        (u32ToBeBytes (List.length [7]) ++ ([7] ++ []))).1 = .active :=
  missing_variant_is_noop .disabled decAlwaysEmpty encTag [7] [] (by decide) (by rfl)

/-- Counterexample to claim C6: a stream truncated in mid-frame (declared
length 5, only 2 body bytes before end-of-stream) produces exactly the same
`Ok(false)` peer-closed outcome as a stream closed cleanly before any byte —
the mid-frame truncation is not surfaced as an IO error, so the two cases are
not distinguishable in `handle`'s result. -/
theorem truncated_frame_not_distinguished :
    handle .disabled decAlwaysEmpty encTag [0, 0, 0, 5, 1, 2] =
      (.ok false, [], [0, 0, 0, 5, 1, 2])
    ∧ handle .disabled decAlwaysEmpty encTag [] = (.ok false, [], [])
    ∧ (handle .disabled decAlwaysEmpty encTag [0, 0, 0, 5, 1, 2]).1 =
        (handle .disabled decAlwaysEmpty encTag []).1 := by
  exact ⟨rfl, rfl, rfl⟩

/-- Claim C6 as amended: `read_exact` reports `ErrorKind::UnexpectedEof` for
end-of-stream before the prefix, inside the prefix and inside the body alike,
and `handle` maps every `UnexpectedEof` to the same graceful peer-closed
outcome `Ok(false)` with nothing written — clean close is handled as the
normal peer-closed case, but a mid-frame truncation is not distinguished
from it. -/
theorem eof_always_peer_closed (oc : OverflowChecks)
    (dec : List Nat → Except String ClientMessage) (enc : ServerMessage → List Nat)
    (s : List Nat)
    (h : s.length < 4 ∨ (u32FromBeBytes (s.take 4) ≤ MAX_MESSAGE_SIZE ∧
          s.length < 4 + u32FromBeBytes (s.take 4))) :
    handle oc dec enc s = (.ok false, [], s) := by
  by_cases h4 : s.length < 4
  · have he := readExact_short s 4 h4
    simp [handle, read_message, he]
  · rcases h with h | ⟨h1, h2⟩
    · exact absurd h h4
    · push_neg at h4
      have he : readExact s 4 = .ok (s.take 4, s.drop 4) := by simp [readExact, h4]
      have hshort : readExact (s.drop 4) (u32FromBeBytes (s.take 4)) =
          .error ⟨.unexpectedEof, "failed to fill whole buffer"⟩ := by
        apply readExact_short
        simp only [List.length_drop]
        omega
      simp [handle, read_message, he, Nat.not_lt.mpr h1, hshort]

/-- Witness for the amended C6 at the truncated stream of the counterexample. -/
theorem eof_always_peer_closed_witness :
    handle .disabled decAlwaysFails encTag [0, 0, 0, 5, 1, 2] =
      (.ok false, [], [0, 0, 0, 5, 1, 2]) :=
  eof_always_peer_closed .disabled decAlwaysFails encTag [0, 0, 0, 5, 1, 2]
    (.inr ⟨by decide, by decide⟩)

/-- Counterexample to claim C7: with the startup `local_addr()` query
succeeding, a fatal accept error does break the loop (the following `conn`
event is never reached, zero tasks are submitted) yet `Server::run` returns
`Ok`, recording the error only in its log — the error does not propagate to
the caller. -/
theorem fatal_accept_error_swallowed :
    Server.run none [.fatal ⟨.other, "boom"⟩, .conn] =
      .ok ⟨0, some ⟨.other, "boom"⟩⟩ := rfl

/-- Claim C7 as amended: `Server::run` returns an error exactly when the
startup `local_addr()` query fails; the accept loop does break immediately on
a fatal accept error (processing no later event and submitting no further
task), but `run` then still returns `Ok`. -/
theorem run_error_only_from_startup (e : IOError) (events rest : List AcceptEvent) :
    Server.run (some e) events = .error e
    ∧ Server.run none events = .ok ⟨(acceptLoop events).1, (acceptLoop events).2⟩
    ∧ acceptLoop (.fatal e :: rest) = (0, some e) := by
  refine ⟨rfl, ?_, rfl⟩
  simp [Server.run]

/-- Claim C8: `Server::stop` on a running server clears the flag and dials the
server's own listening address (when `local_addr()` succeeds); on a stopped
server it only warns and changes nothing; hence two consecutive calls leave
the running flag exactly as one call does — `stop` is idempotent. -/
theorem stop_idempotent :
    (∀ ok, (Server.stop true ok).1 = false)
    ∧ Server.stop true true = (false, .dialedSelf)
    ∧ (∀ ok, Server.stop false ok = (false, .warnedAlreadyStopped))
    ∧ (∀ s ok1 ok2, (Server.stop (Server.stop s ok1).1 ok2).1 = (Server.stop s ok1).1) := by
  refine ⟨fun ok => rfl, rfl, fun ok => rfl, fun s ok1 ok2 => ?_⟩
  cases s <;> rfl

/-- Claim C9: the spec requires a panic in one task to leave the worker's
dequeue loop able to run later tasks.  The code runs `job()` with no
catch/recover (server.rs line 81), so a panicking job unwinds the worker
thread: of the message sequence panicking job, normal job, terminate, only
the first job is started and the loop ends by panic — while the same loop
given two normal jobs starts both and exits by `Terminate`. -/
theorem worker_dies_on_task_panic :
    workerLoop [.newJob .panics, .newJob .completes, .terminate] = (1, .panicked)
    ∧ workerLoop [.newJob .completes, .newJob .completes, .terminate] = (2, .terminated) := by
  exact ⟨rfl, rfl⟩

/-- Claim C10: `Client::receive` enforces no message-size ceiling: whatever
length `L` the 4 prefix bytes declare, it reads exactly the next `L` bytes
and hands them to the decoder — its result is determined by the decoder on
those bytes, never a too-large error — whereas the server-side `read_message`
rejects the same stream with the "message too large" error whenever `L`
exceeds `MAX_MESSAGE_SIZE`. -/
theorem client_receive_unbounded (dec : List Nat → Except String ServerMessage)
    (lenBuf body rest : List Nat) (h4 : lenBuf.length = 4)
    (hb : body.length = u32FromBeBytes lenBuf) :
    Client.receive dec (some (lenBuf ++ (body ++ rest))) =
      (match dec body with
       | .ok m => .ok (m, rest)
       | .error _ => .error ⟨.invalidData, "Failed to decode ServerMessage"⟩)
    ∧ (MAX_MESSAGE_SIZE < u32FromBeBytes lenBuf →
        read_message (lenBuf ++ (body ++ rest)) = .error msgTooLarge) := by
  have h1 : readExact (lenBuf ++ (body ++ rest)) 4 = .ok (lenBuf, body ++ rest) := by
    rw [← h4]; exact readExact_append _ _
  have h2 : readExact (body ++ rest) (u32FromBeBytes lenBuf) = .ok (body, rest) := by
    rw [← hb]; exact readExact_append _ _
  constructor
  · cases hdb : dec body <;> simp [Client.receive, h1, h2, hdb]
  · intro hmax
    simp [read_message, h1, hmax]

/-- Witness for C10 at the declared length 1048577 = 1 MiB + 1, one above the
server's ceiling, with exactly that many body bytes available: the client
read succeeds while the server-side read of the same stream is rejected. -/
theorem client_receive_unbounded_witness :
    Client.receive decSrvAlwaysEmpty
        (some ([0, 16, 0, 1] ++ (List.replicate 1048577 55 ++ []))) =
      (match decSrvAlwaysEmpty (List.replicate 1048577 55) with
       | .ok m => .ok (m, [])
       | .error _ => .error ⟨.invalidData, "Failed to decode ServerMessage"⟩)
    ∧ (MAX_MESSAGE_SIZE < u32FromBeBytes [0, 16, 0, 1] →
        read_message ([0, 16, 0, 1] ++ (List.replicate 1048577 55 ++ [])) =
          .error msgTooLarge) :=
  client_receive_unbounded decSrvAlwaysEmpty [0, 16, 0, 1] (List.replicate 1048577 55) []
    (by rfl) (by rw [List.length_replicate]; rfl)
